import Mathlib

/-!
Shallow embedding of the chat component in `src/src/App.tsx` of
sujii/tinytoys, together with proofs about its request lifecycle,
message-history cap, and error handling.

The component is single-threaded and event-driven: the only suspension
point of `sendMessage` is the awaited `axios.post`.  We therefore split
`sendMessage` into its synchronous prefix (`submitStep`, everything up to
the `await`) and its resumption (`completeStep`, the code that runs once
the awaited promise settles), and model a session as a fold of events
over the component state.
-/

namespace TinyToys

/-- The `Message` interface (App.tsx lines 9-13). -/
structure Message where
  text : String
  isUser : Bool
  id : String
deriving DecidableEq, Repr

/-- `MAX_MESSAGES` (App.tsx line 7). -/
def MAX_MESSAGES : Nat := 5000

/-- `setMessagesWithLimit` (App.tsx lines 38-42):
`newMessages.length > MAX_MESSAGES ? newMessages.slice(-MAX_MESSAGES) : newMessages`.
JavaScript `slice(-n)` keeps the last `n` elements, i.e. drops
`length - n` elements from the front. -/
def setMessagesWithLimit (newMessages : List Message) : List Message :=
  if newMessages.length > MAX_MESSAGES then
    newMessages.drop (newMessages.length - MAX_MESSAGES)
  else
    newMessages

/-- A base-36 digit character, as produced by JavaScript
`Number.prototype.toString(36)`: `0`-`9` then `a`-`z`. -/
def digitChar36 (d : Nat) : Char :=
  if d < 10 then Char.ofNat (d + 48) else Char.ofNat (d + 87)

/-- Base-36 digits of `n`, most significant first; `fuel` bounds the
recursion (structural, so that the kernel can evaluate it). -/
def toBase36Core : Nat → Nat → List Char
  | 0, _ => []
  | fuel + 1, n =>
    if n < 36 then [digitChar36 n]
    else toBase36Core fuel (n / 36) ++ [digitChar36 (n % 36)]

/-- JavaScript `n.toString(36)` for a natural number `n`. -/
def toBase36 (n : Nat) : String :=
  ⟨toBase36Core (n + 1) n⟩

/-- `createMessageId` (App.tsx lines 45-47):
`Date.now().toString(36) + Math.random().toString(36).substr(2)`.
`nowMs` is the millisecond clock reading and `randFrac` the string of
base-36 fraction digits of the `Math.random()` draw (what is left of
`Math.random().toString(36)` after `.substr(2)` removes the leading
`"0."`).  Both are environment inputs, not controlled by the program. -/
def createMessageId (nowMs : Nat) (randFrac : String) : String :=
  toBase36 nowMs ++ randFrac

/-- The rate-limit message text (App.tsx line 118). -/
def rateLimitText : String := "Rate limit exceeded. Please try again later."

/-- The generic failure message text (App.tsx line 119). -/
def genericFailureText : String := "Error: Failed to get response"

/-- JavaScript `String.prototype.trim`: strip leading and trailing
whitespace. -/
def jsTrim (s : String) : String :=
  ⟨((s.data.dropWhile Char.isWhitespace).reverse.dropWhile Char.isWhitespace).reverse⟩

/-- The facets of a rejection value that the `catch` block of
`sendMessage` inspects (App.tsx lines 111-122): whether
`axios.isAxiosError(error)` holds, whether `error.name === 'CanceledError'`,
and `error.response?.status`. -/
structure ReqError where
  isAxiosError : Bool
  isCanceled : Bool
  status : Option Nat
deriving DecidableEq, Repr

/-- How the awaited `axios.post` settles: fulfilled with the reply content
`response.data.choices[0].message.content`, or rejected with an error. -/
inductive Outcome where
  | success (content : String)
  | err (e : ReqError)
deriving DecidableEq, Repr

/-- Modelled from the spec: the 30-second timer (App.tsx lines 81-85)
fires `abortControllerRef.current.abort()`, and axios surfaces an abort
through its signal as a rejection with a `CanceledError` (an
`AxiosError` named `'CanceledError'`, carrying no HTTP response).  A
request that exceeds the timeout window therefore settles with this
error. -/
def timeoutError : ReqError :=
  { isAxiosError := true, isCanceled := true, status := none }

/-- The in-flight request tracked by `abortControllerRef` together with
the body content it was issued with (App.tsx lines 80, 87-100). -/
structure PendingRequest where
  content : String
deriving DecidableEq, Repr

/-- The component state: the `input`, `messages` and `isLoading` React
states plus `abortControllerRef` (App.tsx lines 23-26). -/
structure AppState where
  input : String
  messages : List Message
  isLoading : Bool
  pending : Option PendingRequest
deriving DecidableEq, Repr

/-- The initial component state (App.tsx lines 23-26). -/
def initState : AppState :=
  { input := "", messages := [], isLoading := false, pending := none }

/-- The synchronous prefix of `sendMessage` (App.tsx lines 63-100): the
guard `if (!trimmedInput || isLoading) return;`, then
`cancelPreviousRequest()` (aborting and clearing any previous
controller), `setIsLoading(true)`, appending the user message through
`setMessagesWithLimit`, `setInput('')`, installing a fresh
`AbortController` and issuing the POST whose body carries
`userMessage.text`.  `idU` is the value `createMessageId()` returned for
the user message. -/
def submitStep (idU : String) (s : AppState) : AppState :=
  if jsTrim s.input = "" ∨ s.isLoading = true then s
  else
    { input := ""
      messages := setMessagesWithLimit
        (s.messages ++ [{ text := jsTrim s.input, isUser := true, id := idU }])
      isLoading := true
      pending := some { content := jsTrim s.input } }

/-- The resumption of `sendMessage` once the awaited `axios.post`
settles (App.tsx lines 102-131).  On fulfilment the bot message is
appended; on rejection the `catch` block runs: a `CanceledError` that is
an axios error returns early ("Don't show error for cancelled
requests"), otherwise the rate-limit text (axios error with
`error.response?.status === 429`) or the generic failure text is
appended as a bot message.  The `finally` block then runs
`setIsLoading(false)` and clears `abortControllerRef`.  `idB` is the
value `createMessageId()` returned for the appended message.  With no
request in flight there is nothing to settle, so the state is
unchanged. -/
def completeStep (idB : String) (o : Outcome) (s : AppState) : AppState :=
  match s.pending with
  | none => s
  | some _ =>
    match o with
    | Outcome.success content =>
      { s with
        messages := setMessagesWithLimit
          (s.messages ++ [{ text := content, isUser := false, id := idB }])
        isLoading := false
        pending := none }
    | Outcome.err e =>
      if e.isAxiosError && e.isCanceled then
        { s with isLoading := false, pending := none }
      else
        { s with
          messages := setMessagesWithLimit
            (s.messages ++
              [{ text :=
                   if e.isAxiosError && (e.status == some 429) then rateLimitText
                   else genericFailureText,
                 isUser := false, id := idB }])
          isLoading := false
          pending := none }

/-- The events a session is made of: the (debounced) input setter
`debouncedSetInput` firing (App.tsx lines 50-53), a submission of the
current input (button click or Enter), and the settling of the awaited
network call. -/
inductive Event where
  | setInput (value : String)
  | submit (idU : String)
  | complete (idB : String) (o : Outcome)
deriving DecidableEq, Repr

/-- One event processed on the component state. -/
def step (s : AppState) (e : Event) : AppState :=
  match e with
  | Event.setInput v => { s with input := v }
  | Event.submit idU => submitStep idU s
  | Event.complete idB o => completeStep idB o s

/-- A session: a sequence of events folded over the state. -/
def runSession (s : AppState) (es : List Event) : AppState :=
  es.foldl step s

/-- The fresh ids `createMessageId` handed to an event. -/
def eventIds : Event → List String
  | Event.setInput _ => []
  | Event.submit idU => [idU]
  | Event.complete idB _ => [idB]

/-- All ids `createMessageId` handed out over a session, in order. -/
def sessionIds : List Event → List String
  | [] => []
  | e :: es => eventIds e ++ sessionIds es

/-! ## Helper lemmas about the history cap -/

theorem setMessagesWithLimit_length_le (l : List Message) :
    (setMessagesWithLimit l).length ≤ MAX_MESSAGES := by
  have hM : MAX_MESSAGES = 5000 := rfl
  unfold setMessagesWithLimit
  split
  next h => rw [List.length_drop]; omega
  next h => omega

theorem setMessagesWithLimit_drops_oldest (l : List Message) :
    ∃ dropped, l = dropped ++ setMessagesWithLimit l := by
  unfold setMessagesWithLimit
  split
  next h => exact ⟨l.take (l.length - MAX_MESSAGES), (List.take_append_drop _ l).symm⟩
  next h => exact ⟨[], rfl⟩

theorem setMessagesWithLimit_sublist (l : List Message) :
    List.Sublist (setMessagesWithLimit l) l := by
  unfold setMessagesWithLimit
  split
  next h => exact List.drop_sublist _ _
  next h => exact List.Sublist.refl _

theorem setMessagesWithLimit_append_one (m : List Message) (u : Message) :
    ∃ k, k ≤ m.length ∧ setMessagesWithLimit (m ++ [u]) = m.drop k ++ [u] := by
  have hM : MAX_MESSAGES = 5000 := rfl
  have hlen : (m ++ [u]).length = m.length + 1 := by simp
  unfold setMessagesWithLimit
  split
  next h =>
    exact ⟨(m ++ [u]).length - MAX_MESSAGES, by omega,
      List.drop_append_of_le_length (by omega)⟩
  next h => exact ⟨0, Nat.zero_le _, by simp⟩

theorem setMessagesWithLimit_append_two (m : List Message) (u b : Message) :
    ∃ k, k ≤ m.length ∧ setMessagesWithLimit (m ++ [u, b]) = m.drop k ++ [u, b] := by
  have hM : MAX_MESSAGES = 5000 := rfl
  have hlen : (m ++ [u, b]).length = m.length + 2 := by simp
  unfold setMessagesWithLimit
  split
  next h =>
    exact ⟨(m ++ [u, b]).length - MAX_MESSAGES, by omega,
      List.drop_append_of_le_length (by omega)⟩
  next h => exact ⟨0, Nat.zero_le _, by simp⟩

theorem mem_setMessagesWithLimit_append_two (m : List Message) (u b : Message) :
    u ∈ setMessagesWithLimit (m ++ [u, b]) := by
  obtain ⟨k, hk, e⟩ := setMessagesWithLimit_append_two m u b
  rw [e]
  simp

theorem step_messages_length_le (s : AppState) (e : Event)
    (h : s.messages.length ≤ MAX_MESSAGES) :
    (step s e).messages.length ≤ MAX_MESSAGES := by
  cases e with
  | setInput v => simpa [step] using h
  | submit idU =>
    simp only [step, submitStep]
    split
    · exact h
    · exact setMessagesWithLimit_length_le _
  | complete idB o =>
    cases hp : s.pending with
    | none => simpa [step, completeStep, hp] using h
    | some r =>
      cases o with
      | success content =>
        simp only [step, completeStep, hp]
        exact setMessagesWithLimit_length_le _
      | err e =>
        simp only [step, completeStep, hp]
        split
        · simpa using h
        · exact setMessagesWithLimit_length_le _

theorem runSession_messages_length_le (s : AppState) (es : List Event)
    (h : s.messages.length ≤ MAX_MESSAGES) :
    (runSession s es).messages.length ≤ MAX_MESSAGES := by
  induction es generalizing s with
  | nil => simpa [runSession] using h
  | cons e es ih => exact ih (step s e) (step_messages_length_le s e h)

/-! ## Helper lemmas about message ids

Every message a step appends carries the id `createMessageId` handed to
that event, so the ids present in the history always form a sublist of
the ids handed out. -/

theorem step_ids_sublist (s : AppState) (e : Event) :
    List.Sublist ((step s e).messages.map Message.id)
      (s.messages.map Message.id ++ eventIds e) := by
  cases e with
  | setInput v =>
    simp [step, eventIds]
  | submit idU =>
    by_cases hg : jsTrim s.input = "" ∨ s.isLoading = true
    · simp only [step, submitStep, if_pos hg, eventIds]
      exact List.sublist_append_left _ _
    · simp only [step, submitStep, if_neg hg, eventIds]
      have h1 := (setMessagesWithLimit_sublist
        (s.messages ++ [{ text := jsTrim s.input, isUser := true, id := idU }])).map
          Message.id
      simpa using h1
  | complete idB o =>
    cases hp : s.pending with
    | none =>
      simp only [step, completeStep, hp, eventIds]
      exact List.sublist_append_left _ _
    | some r =>
      cases o with
      | success content =>
        simp only [step, completeStep, hp, eventIds]
        have h1 := (setMessagesWithLimit_sublist
          (s.messages ++ [{ text := content, isUser := false, id := idB }])).map
            Message.id
        simpa using h1
      | err e =>
        simp only [step, completeStep, hp, eventIds]
        split
        · exact List.sublist_append_left _ _
        · have h1 := (setMessagesWithLimit_sublist
            (s.messages ++
              [{ text :=
                   if e.isAxiosError && (e.status == some 429) then rateLimitText
                   else genericFailureText,
                 isUser := false, id := idB }])).map Message.id
          simpa using h1

theorem runSession_ids_sublist (s : AppState) (es : List Event) :
    List.Sublist ((runSession s es).messages.map Message.id)
      (s.messages.map Message.id ++ sessionIds es) := by
  induction es generalizing s with
  | nil =>
    simp [runSession, sessionIds]
  | cons e es ih =>
    have h1 := ih (step s e)
    have h2 := (step_ids_sublist s e).append_right (sessionIds es)
    have h3 := h1.trans h2
    simpa [runSession, sessionIds, List.append_assoc] using h3

/-! ## The claims -/

/-- C3: after every update to the message history the history's length is
at most `MAX_MESSAGES` (= 5000); when an update would exceed the cap,
`setMessagesWithLimit` keeps a suffix of the new list, i.e. the oldest
entries are the ones dropped and the survivors keep their relative
order. -/
theorem history_cap_after_updates (es : List Event) (l : List Message) :
    (runSession initState es).messages.length ≤ MAX_MESSAGES ∧
    (setMessagesWithLimit l).length ≤ MAX_MESSAGES ∧
    ∃ dropped, l = dropped ++ setMessagesWithLimit l :=
  ⟨runSession_messages_length_le initState es (by decide),
   setMessagesWithLimit_length_le l,
   setMessagesWithLimit_drops_oldest l⟩

/-- C6: submitting input whose trimmed form is empty is a no-op: the guard
`if (!trimmedInput || isLoading) return;` fires before any state change,
so the history, the input and the loading flag are unchanged and no
request is issued. -/
theorem submit_blank_noop (s : AppState) (idU : String)
    (h : jsTrim s.input = "") :
    step s (Event.submit idU) = s := by
  simp [step, submitStep, h]

theorem submit_blank_noop_witness :
    jsTrim ((⟨"  ", [], false, none⟩ : AppState).input) = "" ∧
    step (⟨"  ", [], false, none⟩ : AppState) (Event.submit "u1")
      = (⟨"  ", [], false, none⟩ : AppState) :=
  ⟨by decide, submit_blank_noop ⟨"  ", [], false, none⟩ "u1" (by decide)⟩

/-- C1 counterexample: with a request pending (`isLoading = true`,
controller installed), a second submission is rejected by the guard
`if (!trimmedInput || isLoading) return;`: the state is unchanged — in
particular the pending (first) request is NOT cancelled — and when the
first request then succeeds it is the first request's result that is
appended to the history, contradicting the claim that the first is
cancelled and only the second's result is appended. -/
theorem second_submit_ignored_cex :
    step (⟨"second", [⟨"first", true, "u1"⟩], true, some ⟨"first"⟩⟩ : AppState)
        (Event.submit "u2")
      = (⟨"second", [⟨"first", true, "u1"⟩], true, some ⟨"first"⟩⟩ : AppState) ∧
    (runSession (⟨"second", [⟨"first", true, "u1"⟩], true, some ⟨"first"⟩⟩ : AppState)
        [Event.submit "u2", Event.complete "b1" (Outcome.success "reply to first")]).messages
      = [⟨"first", true, "u1"⟩, ⟨"reply to first", false, "b1"⟩] :=
  ⟨by decide, by decide⟩

/-- C1 (amended): a submission issued while a request is pending
(`isLoading = true`) is a no-op — the loading guard rejects it, the
pending request is not cancelled, and it is the pending request's own
result or error that is appended when it settles. -/
theorem submit_while_loading_noop (s : AppState) (idU : String)
    (h : s.isLoading = true) :
    step s (Event.submit idU) = s := by
  simp [step, submitStep, h]

theorem submit_while_loading_noop_witness :
    (⟨"x", [], true, some ⟨"q"⟩⟩ : AppState).isLoading = true ∧
    step (⟨"x", [], true, some ⟨"q"⟩⟩ : AppState) (Event.submit "u2")
      = (⟨"x", [], true, some ⟨"q"⟩⟩ : AppState) :=
  ⟨rfl, submit_while_loading_noop ⟨"x", [], true, some ⟨"q"⟩⟩ "u2" rfl⟩

/-- C2 counterexample: a submitted request that exceeds the timeout
window is aborted by the 30-second timer, so axios rejects with a
`CanceledError`; the `catch` block's cancellation branch swallows it, so
the generic failure message is NOT appended — the session ends with only
the user message in the history and the loading flag cleared. -/
theorem timeout_no_failure_message_cex :
    runSession (⟨"hello", [], false, none⟩ : AppState)
        [Event.submit "u1", Event.complete "b1" (Outcome.err timeoutError)]
      = (⟨"", [⟨"hello", true, "u1"⟩], false, none⟩ : AppState) ∧
    genericFailureText ∉
      ((runSession (⟨"hello", [], false, none⟩ : AppState)
          [Event.submit "u1", Event.complete "b1" (Outcome.err timeoutError)]).messages.map
        Message.text) :=
  ⟨by decide, by decide⟩

/-- C2 (amended): a request exceeding the 30-second timeout window is
aborted and the interaction resolves rather than hangs — the loading
flag returns to `false` and the controller is cleared — but no failure
message is appended: the timeout's `CanceledError` is swallowed by the
cancellation branch of the `catch` block. -/
theorem timeout_resolves_silently (s : AppState) (idB : String)
    (r : PendingRequest) (hp : s.pending = some r) :
    step s (Event.complete idB (Outcome.err timeoutError))
      = { s with isLoading := false, pending := none } := by
  simp [step, completeStep, hp, timeoutError]

theorem timeout_resolves_silently_witness :
    (⟨"", [⟨"hi", true, "u1"⟩], true, some ⟨"hi"⟩⟩ : AppState).pending = some ⟨"hi"⟩ ∧
    step (⟨"", [⟨"hi", true, "u1"⟩], true, some ⟨"hi"⟩⟩ : AppState)
        (Event.complete "b1" (Outcome.err timeoutError))
      = (⟨"", [⟨"hi", true, "u1"⟩], false, none⟩ : AppState) :=
  ⟨rfl, timeout_resolves_silently ⟨"", [⟨"hi", true, "u1"⟩], true, some ⟨"hi"⟩⟩ "b1" ⟨"hi"⟩ rfl⟩

/-- C7: when a pending request is cancelled, axios rejects with a
`CanceledError` (an axios error named `'CanceledError'`, any status);
the `catch` block returns early, so no message of any kind is appended:
the whole effect is the `finally` block clearing the loading flag and
the controller. -/
theorem canceled_request_silent (s : AppState) (idB : String)
    (st : Option Nat) (r : PendingRequest) (hp : s.pending = some r) :
    step s (Event.complete idB (Outcome.err ⟨true, true, st⟩))
      = { s with isLoading := false, pending := none } := by
  simp [step, completeStep, hp]

theorem canceled_request_silent_witness :
    (⟨"", [⟨"hi", true, "u1"⟩], true, some ⟨"hi"⟩⟩ : AppState).pending = some ⟨"hi"⟩ ∧
    step (⟨"", [⟨"hi", true, "u1"⟩], true, some ⟨"hi"⟩⟩ : AppState)
        (Event.complete "b2" (Outcome.err ⟨true, true, some 499⟩))
      = (⟨"", [⟨"hi", true, "u1"⟩], false, none⟩ : AppState) :=
  ⟨rfl, canceled_request_silent ⟨"", [⟨"hi", true, "u1"⟩], true, some ⟨"hi"⟩⟩ "b2"
    (some 499) ⟨"hi"⟩ rfl⟩

/-- C5: a request that settles with a non-cancellation error appends
exactly one bot message (isUser = false, carrying the id handed to the
completion): the rate-limit text when the error is an axios error whose
response status is 429, and the generic failure text for every other
failure. -/
theorem failure_appends_error_message (s : AppState) (idB : String) (e : ReqError)
    (r : PendingRequest) (hp : s.pending = some r)
    (hnc : ¬(e.isAxiosError = true ∧ e.isCanceled = true)) :
    ∃ m : Message,
      (step s (Event.complete idB (Outcome.err e))).messages
          = setMessagesWithLimit (s.messages ++ [m]) ∧
      m.isUser = false ∧ m.id = idB ∧
      ((e.isAxiosError = true ∧ e.status = some 429) → m.text = rateLimitText) ∧
      (¬(e.isAxiosError = true ∧ e.status = some 429) → m.text = genericFailureText) := by
  have hb : (e.isAxiosError && e.isCanceled) = false := by
    cases hA : e.isAxiosError <;> cases hC : e.isCanceled <;> simp_all
  by_cases hc : e.isAxiosError = true ∧ e.status = some 429
  · have hc2 : (e.isAxiosError && (e.status == some 429)) = true := by
      simp [hc.1, hc.2]
    refine ⟨⟨rateLimitText, false, idB⟩, ?_, rfl, rfl, fun _ => rfl, fun hn => absurd hc hn⟩
    simp [step, completeStep, hp, hb, hc2]
  · have hc2 : (e.isAxiosError && (e.status == some 429)) = false := by
      cases hA : e.isAxiosError <;> simp_all
    refine ⟨⟨genericFailureText, false, idB⟩, ?_, rfl, rfl, fun hy => absurd hy hc, fun _ => rfl⟩
    simp [step, completeStep, hp, hb, hc2]

theorem failure_appends_error_message_witness :
    (⟨"", [], true, some ⟨"q"⟩⟩ : AppState).pending = some ⟨"q"⟩ ∧
    ¬((⟨true, false, some 429⟩ : ReqError).isAxiosError = true ∧
      (⟨true, false, some 429⟩ : ReqError).isCanceled = true) ∧
    ∃ m : Message,
      (step (⟨"", [], true, some ⟨"q"⟩⟩ : AppState)
          (Event.complete "b1" (Outcome.err ⟨true, false, some 429⟩))).messages
        = setMessagesWithLimit ((⟨"", [], true, some ⟨"q"⟩⟩ : AppState).messages ++ [m]) ∧
      m.isUser = false ∧ m.id = "b1" ∧
      (((⟨true, false, some 429⟩ : ReqError).isAxiosError = true ∧
        (⟨true, false, some 429⟩ : ReqError).status = some 429) → m.text = rateLimitText) ∧
      (¬((⟨true, false, some 429⟩ : ReqError).isAxiosError = true ∧
         (⟨true, false, some 429⟩ : ReqError).status = some 429) →
        m.text = genericFailureText) :=
  ⟨rfl, by decide, failure_appends_error_message ⟨"", [], true, some ⟨"q"⟩⟩ "b1"
    ⟨true, false, some 429⟩ ⟨"q"⟩ rfl (by decide)⟩

/-- C4: a submission with non-empty trimmed input whose network call
succeeds appends exactly one user message (text = the trimmed input,
isUser = true) followed by exactly one bot message whose text is the
server-provided content (isUser = false): the final history is the old
history, its oldest entries possibly dropped by the cap, followed by
exactly those two messages. -/
theorem success_appends_user_then_bot (s : AppState) (idU idB content : String)
    (hl : s.isLoading = false) (hne : jsTrim s.input ≠ "") :
    (step s (Event.submit idU)).pending = some ⟨jsTrim s.input⟩ ∧
    ∃ k, (runSession s
          [Event.submit idU, Event.complete idB (Outcome.success content)]).messages
        = s.messages.drop k ++
          [⟨jsTrim s.input, true, idU⟩, ⟨content, false, idB⟩] := by
  have hguard : ¬(jsTrim s.input = "" ∨ s.isLoading = true) := by
    simp [hne, hl]
  have hs1 : step s (Event.submit idU)
      = { input := "",
          messages := setMessagesWithLimit
            (s.messages ++ [⟨jsTrim s.input, true, idU⟩]),
          isLoading := true, pending := some ⟨jsTrim s.input⟩ } := by
    simp only [step, submitStep, if_neg hguard]
  obtain ⟨k1, hk1, e1⟩ :=
    setMessagesWithLimit_append_one s.messages ⟨jsTrim s.input, true, idU⟩
  obtain ⟨k2, hk2, e2⟩ :=
    setMessagesWithLimit_append_two (s.messages.drop k1)
      ⟨jsTrim s.input, true, idU⟩ ⟨content, false, idB⟩
  refine ⟨by rw [hs1], ⟨k1 + k2, ?_⟩⟩
  have hrun : runSession s
        [Event.submit idU, Event.complete idB (Outcome.success content)]
      = step (step s (Event.submit idU)) (Event.complete idB (Outcome.success content)) :=
    rfl
  rw [hrun, hs1]
  simp only [step, completeStep]
  rw [e1]
  have hassoc : (s.messages.drop k1 ++ [(⟨jsTrim s.input, true, idU⟩ : Message)])
        ++ [(⟨content, false, idB⟩ : Message)]
      = s.messages.drop k1 ++
        [(⟨jsTrim s.input, true, idU⟩ : Message), (⟨content, false, idB⟩ : Message)] := by
    simp
  rw [hassoc, e2, List.drop_drop]

theorem success_appends_user_then_bot_witness :
    (⟨"hi", [], false, none⟩ : AppState).isLoading = false ∧
    jsTrim ((⟨"hi", [], false, none⟩ : AppState).input) ≠ "" ∧
    ((step (⟨"hi", [], false, none⟩ : AppState) (Event.submit "u1")).pending
        = some ⟨jsTrim ((⟨"hi", [], false, none⟩ : AppState).input)⟩ ∧
      ∃ k, (runSession (⟨"hi", [], false, none⟩ : AppState)
            [Event.submit "u1", Event.complete "b1" (Outcome.success "ok")]).messages
          = (⟨"hi", [], false, none⟩ : AppState).messages.drop k ++
            [⟨jsTrim ((⟨"hi", [], false, none⟩ : AppState).input), true, "u1"⟩,
             ⟨"ok", false, "b1"⟩]) :=
  ⟨rfl, by decide,
    success_appends_user_then_bot ⟨"hi", [], false, none⟩ "u1" "b1" "ok" rfl (by decide)⟩

/-- C10: for a submission with non-empty trimmed input, the synchronous
part of `sendMessage` both appends the user message (text = the trimmed
input) and installs the pending request — the user message is in the
history before the network call settles — and the user message remains
in the history whatever the outcome of the call: success, HTTP failure,
timeout or cancellation. -/
theorem user_message_persists (s : AppState) (idU idB : String) (o : Outcome)
    (hl : s.isLoading = false) (hne : jsTrim s.input ≠ "") :
    (∃ p, (step s (Event.submit idU)).messages
        = p ++ [⟨jsTrim s.input, true, idU⟩]) ∧
    (step s (Event.submit idU)).pending = some ⟨jsTrim s.input⟩ ∧
    (⟨jsTrim s.input, true, idU⟩ : Message)
      ∈ (step (step s (Event.submit idU)) (Event.complete idB o)).messages := by
  have hguard : ¬(jsTrim s.input = "" ∨ s.isLoading = true) := by
    simp [hne, hl]
  have hs1 : step s (Event.submit idU)
      = { input := "",
          messages := setMessagesWithLimit
            (s.messages ++ [⟨jsTrim s.input, true, idU⟩]),
          isLoading := true, pending := some ⟨jsTrim s.input⟩ } := by
    simp only [step, submitStep, if_neg hguard]
  obtain ⟨k1, hk1, e1⟩ :=
    setMessagesWithLimit_append_one s.messages ⟨jsTrim s.input, true, idU⟩
  refine ⟨⟨s.messages.drop k1, by rw [hs1]; exact e1⟩, by rw [hs1], ?_⟩
  rw [hs1]
  cases o with
  | success content =>
    simp only [step, completeStep]
    rw [e1]
    have hassoc : (s.messages.drop k1 ++ [(⟨jsTrim s.input, true, idU⟩ : Message)])
          ++ [(⟨content, false, idB⟩ : Message)]
        = s.messages.drop k1 ++
          [(⟨jsTrim s.input, true, idU⟩ : Message), (⟨content, false, idB⟩ : Message)] := by
      simp
    rw [hassoc]
    exact mem_setMessagesWithLimit_append_two _ _ _
  | err e =>
    simp only [step, completeStep]
    split
    · rw [e1]
      simp
    · rw [e1]
      have hassoc : (s.messages.drop k1 ++ [(⟨jsTrim s.input, true, idU⟩ : Message)])
            ++ [(⟨if e.isAxiosError && (e.status == some 429) then rateLimitText
                  else genericFailureText, false, idB⟩ : Message)]
          = s.messages.drop k1 ++
            [(⟨jsTrim s.input, true, idU⟩ : Message),
             (⟨if e.isAxiosError && (e.status == some 429) then rateLimitText
               else genericFailureText, false, idB⟩ : Message)] := by
        simp
      rw [hassoc]
      exact mem_setMessagesWithLimit_append_two _ _ _

theorem user_message_persists_witness :
    (⟨"hi", [], false, none⟩ : AppState).isLoading = false ∧
    jsTrim ((⟨"hi", [], false, none⟩ : AppState).input) ≠ "" ∧
    ((∃ p, (step (⟨"hi", [], false, none⟩ : AppState) (Event.submit "u1")).messages
        = p ++ [⟨jsTrim ((⟨"hi", [], false, none⟩ : AppState).input), true, "u1"⟩]) ∧
     (step (⟨"hi", [], false, none⟩ : AppState) (Event.submit "u1")).pending
        = some ⟨jsTrim ((⟨"hi", [], false, none⟩ : AppState).input)⟩ ∧
     (⟨jsTrim ((⟨"hi", [], false, none⟩ : AppState).input), true, "u1"⟩ : Message)
        ∈ (step (step (⟨"hi", [], false, none⟩ : AppState) (Event.submit "u1"))
            (Event.complete "b1" (Outcome.err timeoutError))).messages) :=
  ⟨rfl, by decide,
    user_message_persists ⟨"hi", [], false, none⟩ "u1" "b1"
      (Outcome.err timeoutError) rfl (by decide)⟩

/-- C8 counterexample: cancellation is a failure path of a submitted
request that does NOT resolve to a visible chat entry: completing the
pending request with the cancellation error leaves the history exactly
as it was (the loading flag is restored, but nothing is appended), so
not every failure path appends a visible entry. -/
theorem canceled_failure_no_entry_cex :
    (step (⟨"", [⟨"hi", true, "u1"⟩], true, some ⟨"hi"⟩⟩ : AppState)
        (Event.complete "b9" (Outcome.err ⟨true, true, none⟩))).messages
      = [⟨"hi", true, "u1"⟩] ∧
    (step (⟨"", [⟨"hi", true, "u1"⟩], true, some ⟨"hi"⟩⟩ : AppState)
        (Event.complete "b9" (Outcome.err ⟨true, true, none⟩))).isLoading = false :=
  ⟨by decide, by decide⟩

/-- C8 (amended): every failure path of a submitted request restores
input availability — the loading flag returns to false and the
controller is cleared, so nothing hangs and there are no fatal errors —
and every failure other than a cancellation (which includes a
timeout-triggered abort) also appends a visible bot chat entry to the
history. -/
theorem failure_paths_restore_availability (s : AppState) (idB : String)
    (e : ReqError) (r : PendingRequest) (hp : s.pending = some r) :
    (step s (Event.complete idB (Outcome.err e))).isLoading = false ∧
    (step s (Event.complete idB (Outcome.err e))).pending = none ∧
    (¬(e.isAxiosError = true ∧ e.isCanceled = true) →
      ∃ m : Message, m.isUser = false ∧
        (step s (Event.complete idB (Outcome.err e))).messages
          = setMessagesWithLimit (s.messages ++ [m])) := by
  by_cases hb : (e.isAxiosError && e.isCanceled) = true
  · have hstep : step s (Event.complete idB (Outcome.err e))
        = { s with isLoading := false, pending := none } := by
      simp only [step, completeStep, hp, if_pos hb]
    rw [hstep]
    refine ⟨rfl, rfl, fun hn => absurd ?_ hn⟩
    simpa [Bool.and_eq_true] using hb
  · have hstep : step s (Event.complete idB (Outcome.err e))
        = { s with
            messages := setMessagesWithLimit (s.messages ++
              [⟨if e.isAxiosError && (e.status == some 429) then rateLimitText
                else genericFailureText, false, idB⟩]),
            isLoading := false, pending := none } := by
      simp only [step, completeStep, hp, if_neg hb]
    rw [hstep]
    exact ⟨rfl, rfl, fun _ =>
      ⟨⟨if e.isAxiosError && (e.status == some 429) then rateLimitText
        else genericFailureText, false, idB⟩, rfl, rfl⟩⟩

theorem failure_paths_restore_availability_witness :
    (⟨"", [], true, some ⟨"q"⟩⟩ : AppState).pending = some ⟨"q"⟩ ∧
    ((step (⟨"", [], true, some ⟨"q"⟩⟩ : AppState)
        (Event.complete "b3" (Outcome.err ⟨false, false, none⟩))).isLoading = false ∧
     (step (⟨"", [], true, some ⟨"q"⟩⟩ : AppState)
        (Event.complete "b3" (Outcome.err ⟨false, false, none⟩))).pending = none ∧
     (¬((⟨false, false, none⟩ : ReqError).isAxiosError = true ∧
        (⟨false, false, none⟩ : ReqError).isCanceled = true) →
       ∃ m : Message, m.isUser = false ∧
         (step (⟨"", [], true, some ⟨"q"⟩⟩ : AppState)
             (Event.complete "b3" (Outcome.err ⟨false, false, none⟩))).messages
           = setMessagesWithLimit
               ((⟨"", [], true, some ⟨"q"⟩⟩ : AppState).messages ++ [m]))) :=
  ⟨rfl, failure_paths_restore_availability ⟨"", [], true, some ⟨"q"⟩⟩ "b3"
    ⟨false, false, none⟩ ⟨"q"⟩ rfl⟩

/-- C9 counterexample: `createMessageId` concatenates the base-36 clock
reading with the base-36 fraction digits of a random draw, and this does
not guarantee uniqueness: the inputs (1 ms, fraction "0") and (36 ms,
fraction "") both encode to the id "10", and a session using these two
draws puts two messages with the same id in the history. -/
theorem duplicate_ids_cex :
    createMessageId 1 "0" = createMessageId 36 "" ∧
    ¬ ((runSession initState
        [Event.setInput "hi", Event.submit (createMessageId 1 "0"),
         Event.complete (createMessageId 36 "") (Outcome.success "ok")]).messages.map
          Message.id).Nodup :=
  ⟨by decide, by decide⟩

/-- C9 (amended): message ids are unique within a session provided the
id generator hands out pairwise-distinct strings: if every id produced
by `createMessageId` over the session's events is distinct, the ids of
the messages in the history are pairwise distinct.  The generator itself
(clock reading concatenated with a random draw) does not guarantee this
precondition. -/
theorem nodup_ids_of_nodup_generated (es : List Event)
    (h : (sessionIds es).Nodup) :
    ((runSession initState es).messages.map Message.id).Nodup := by
  have hsub := runSession_ids_sublist initState es
  simp only [initState, List.map_nil, List.nil_append] at hsub
  exact List.Nodup.sublist hsub h

theorem nodup_ids_of_nodup_generated_witness :
    (sessionIds [Event.setInput "hi", Event.submit "a",
      Event.complete "b" (Outcome.success "ok")]).Nodup ∧
    ((runSession initState [Event.setInput "hi", Event.submit "a",
        Event.complete "b" (Outcome.success "ok")]).messages.map Message.id).Nodup :=
  ⟨by decide, nodup_ids_of_nodup_generated
    [Event.setInput "hi", Event.submit "a", Event.complete "b" (Outcome.success "ok")]
    (by decide)⟩

end TinyToys
